import Mathlib

/-!
# Verification of simple-pytorrent (peerwire.py, socketthread.py)

Shallow embedding of the peer-wire protocol code and the socket-thread
command handlers.  Byte strings (Python 2 `str`) are modelled as
`List Nat` of byte values; a Python function that can raise an uncaught
exception is modelled with `Option` (`none` = the exception escapes).
-/

namespace PyTorrent

/-! ## peerwire.generate_handshake -/

/-- The protocol string `pstr = b"BitTorrent protocol"` of
`generate_handshake`. -/
def pstr : List Nat := (String.toList "BitTorrent protocol").map (fun c => c.toNat)

/-- Embedding of `generate_handshake` (peerwire.py lines 46-81).
`pstrlen = bytes(chr(len(pstr)))`, `reserved = b"\x00" * 8`, the
concatenation, and the two `assert` statements (an assertion failure is
`none`). -/
def generate_handshake (info_hash peer_id : List Nat) : Option (List Nat) :=
  let pstrlen : List Nat := [pstr.length]
  let reserved : List Nat := List.replicate 8 0
  let handshake := pstrlen ++ pstr ++ reserved ++ info_hash ++ peer_id
  if handshake.length = 49 + pstr.length then
    if pstrlen = [19] then some handshake else none
  else none

/-! ## peerwire.decode_handshake -/

/-- The decoded handshake dict
(keys pstr, pstrlen, reserved, info_hash and peer_id). -/
structure Handshake where
  pstrlen : Nat
  pstr : List Nat
  reserved : List Nat
  info_hash : List Nat
  peer_id : List Nat
deriving DecidableEq, Repr

/-- Python `list.pop()`: removes and returns the last element; raises
`IndexError` (= `none`) on an empty list. -/
def pyListPop (l : List Nat) : Option (Nat × List Nat) :=
  match l.getLast? with
  | none => none
  | some x => some (x, l.dropLast)

/-- Runs `n` consecutive `pop()` calls whose results are concatenated in pop
order (`acc += stack.pop()` run `n` times). -/
def popN : Nat → List Nat → Option (List Nat × List Nat)
  | 0, l => some ([], l)
  | n + 1, l =>
    match pyListPop l with
    | none => none
    | some (x, l1) =>
      match popN n l1 with
      | none => none
      | some (xs, l2) => some (x :: xs, l2)

/-- Embedding of `decode_handshake` (peerwire.py lines 84-115): the
input is reversed into a stack, then `pstrlen` (1 byte), `pstr`
(`pstrlen` bytes), `reserved` (8), `info_hash` (20) and `peer_id` (20)
are popped off; an exhausted stack raises IndexError (= `none`). -/
def decode_handshake (handshake : List Nat) : Option Handshake :=
  let stack := handshake.reverse
  match pyListPop stack with
  | none => none
  | some (pstrlen, s1) =>
    match popN pstrlen s1 with
    | none => none
    | some (ps, s2) =>
      match popN 8 s2 with
      | none => none
      | some (reserved, s3) =>
        match popN 20 s3 with
        | none => none
        | some (info_hash, s4) =>
          match popN 20 s4 with
          | none => none
          | some (peer_id, _) =>
            some ⟨pstrlen, ps, reserved, info_hash, peer_id⟩

/-! ## peerwire.Bitfield -/

/-- One byte of `Bitfield.__init__`:
`for bit in reversed(range(8)): append(bool(ord(byte) >> bit & 1))`. -/
def byteToBits (byte : Nat) : List Bool :=
  ((List.range 8).reverse).map (fun bit => ((byte >>> bit) &&& 1) != 0)

/-- Embedding of `Bitfield.__init__` (peerwire.py lines 329-335): the
raw byte string becomes a list of booleans, 8 per byte, MSB first. -/
def Bitfield.ofBytes (raw : List Nat) : List Bool :=
  raw.flatMap byteToBits

/-- The body of the `add_index` while loop
(`while len(self.bitfield) <= index: self.bitfield.append(False)`)
runs exactly `index + 1 - len` times; `padLoop` performs that many
appends. -/
def padLoop : Nat → List Bool → List Bool
  | 0, b => b
  | n + 1, b => padLoop n (b ++ [false])

/-- Embedding of `Bitfield.add_index` (peerwire.py lines 340-343):
pad with `False` until the length exceeds `index`, then
`self.bitfield[index] = True`. -/
def add_index (b : List Bool) (index : Nat) : List Bool :=
  (padLoop (index + 1 - b.length) b).set index true

/-- Embedding of `Bitfield.has_index` (peerwire.py lines 345-349):
`if len(self.bitfield) >= index: return self.bitfield[index]` —
a list subscript out of range raises IndexError (= `none`). -/
def has_index (b : List Bool) (index : Nat) : Option Bool :=
  if b.length ≥ index then b[index]? else some false

/-! ## socketthread.SocketCommand / SocketReply -/

/-- The command constants of `SocketCommand`
(CONNECT, SEND, RECEIVE, RECEIVE_WITH_PREFIX, CLOSE). -/
inductive CommandType where
  | connect
  | send
  | receive
  | receivePrefixed
  | close
deriving DecidableEq, Repr

/-- A `SocketCommand(command, payload=None)` object; the payload (an
address, a byte string, a byte count, or None) is kept opaque here since
the claims only concern the command tag. -/
structure SocketCommand where
  command : CommandType
  payload : Option (List Nat) := none
deriving DecidableEq, Repr

/-- The reply status constants of `SocketReply`
(SUCCESS, ERROR, NONE). -/
inductive ReplyStatus where
  | success
  | error
  | noneStatus
deriving DecidableEq, Repr

/-- A `SocketReply(status, payload=None)` whose payload is a byte
string, as produced by `_handle_RECEIVE` (the error-object payload of an
Error reply is irrelevant to the claims and modelled as the empty
string). -/
structure SocketReply where
  status : ReplyStatus
  payload : List Nat := []
deriving DecidableEq, Repr

/-! ## socketthread.SocketThread.close and _handle_CLOSE -/

/-- The command that `SocketThread.close` (socketthread.py lines
172-176) actually puts on the command queue:
`SocketCommand(SocketCommand.CONNECT)` — the CONNECT tag with no
payload. -/
def close_enqueued_command : SocketCommand :=
  { command := CommandType.connect, payload := none }

/-- The socket-facing state a `SocketThread` carries: whether
`self.socket` is an open socket and the `connected` event flag. -/
structure SocketState where
  socketOpen : Bool
  connected : Bool
deriving DecidableEq, Repr

/-- Embedding of `_handle_CLOSE` (socketthread.py lines 235-242):
`self.socket.close(); self.connected.clear();` then exactly one
`SocketReply(SocketReply.SUCCESS)` is put on the reply queue.  The
returned list is the sequence of replies produced. -/
def handle_CLOSE (st : SocketState) : SocketState × List SocketReply :=
  ({ st with socketOpen := false, connected := false },
   [{ status := ReplyStatus.success }])

/-! ## socketthread.receive_all and _handle_RECEIVE_WITH_PREFIX -/

/-- Embedding of `receive_all(sock, n)` (socketthread.py lines 30-45)
over a byte-stream model of the socket: the loop keeps calling
`sock.recv` until `n` bytes are accumulated or the stream is exhausted
(`recv` returns an empty string), so it yields the first `min n |s|` bytes of the
stream and leaves the rest. -/
def receive_all (stream : List Nat) (n : Nat) : List Nat × List Nat :=
  (stream.take n, stream.drop n)

/-- Result of `struct.unpack` of an unsigned big-endian integer ("!B", "!H", "!I",
"!Q") applied to a byte string of exactly the matching width. -/
def beUnpack (b : List Nat) : Nat :=
  b.foldl (fun acc byte => acc * 256 + byte) 0

/-- Outcome of one `_handle_RECEIVE_WITH_PREFIX` call: the single reply
put on the reply queue, or the uncaught `TypeError` raised for an
invalid width. -/
inductive PrefixOutcome where
  | success (lengthPrefixBytes body : List Nat)
  | errorClosedPrematurely
  | typeErrorBadWidth
deriving DecidableEq, Repr

/-- Embedding of `_handle_RECEIVE_WITH_PREFIX(prefix_size)`
(socketthread.py lines 269-305) over the byte-stream model: read
`prefix_size` bytes; if short, reply Error "Socket closed prematurely";
unpack the width-matched big-endian integer (widths other than 1,2,4,8
raise TypeError, which the `except socket.error` clause does not catch);
read that many further bytes (an empty byte string, without reading, when the length is
0); reply Success with the `(length_prefix, received_data)` pair when
complete, else the same Error. -/
def handle_RECEIVE_PREFIXED (prefix_size : Nat) (stream : List Nat) :
    PrefixOutcome :=
  let (lengthPrefixBytes, s1) := receive_all stream prefix_size
  if lengthPrefixBytes.length = prefix_size then
    if prefix_size = 1 ∨ prefix_size = 2 ∨ prefix_size = 4 ∨ prefix_size = 8 then
      let message_length := beUnpack lengthPrefixBytes
      let received_data :=
        if message_length = 0 then [] else (receive_all s1 message_length).1
      if received_data.length = message_length then
        PrefixOutcome.success lengthPrefixBytes received_data
      else
        PrefixOutcome.errorClosedPrematurely
    else
      PrefixOutcome.typeErrorBadWidth
  else
    PrefixOutcome.errorClosedPrematurely

/-! ## peerwire.Peer.receive_handshake -/

/-- A Python 2 runtime value, as far as the `+`/`-` expressions in
`receive_handshake` need: an int or a byte string. -/
inductive PyVal where
  | int (n : Int)
  | bytes (b : List Nat)
deriving DecidableEq, Repr

/-- Python `+`: int addition or byte-string concatenation; mixing the
two raises TypeError (= `none`). -/
def pyAdd : PyVal → PyVal → Option PyVal
  | PyVal.int a, PyVal.int b => some (PyVal.int (a + b))
  | PyVal.bytes a, PyVal.bytes b => some (PyVal.bytes (a ++ b))
  | _, _ => none

/-- Python `-`: defined on ints only; anything else raises TypeError
(= `none`). -/
def pySub : PyVal → PyVal → Option PyVal
  | PyVal.int a, PyVal.int b => some (PyVal.int (a - b))
  | _, _ => none

/-- How one call of `Peer.receive_handshake` ends: a raised
`HandshakeException(self)`, an uncaught TypeError, an uncaught error
escaping `decode_handshake`, or normal return with `self.handshake`
set to the decoded dict. -/
inductive HandshakeOutcome where
  | handshakeException
  | typeError
  | decodeError
  | ok (h : Handshake)
deriving DecidableEq, Repr

/-- Embedding of `Peer.receive_handshake` (peerwire.py lines 160-181).
`reply1` is the reply to `receive(1)` and `reply2` the reply the second
`receive` would produce.  After a successful first reply the code
evaluates `pstrlen + handshake_length_without_pstr - pstrlen_byte_len`
where `pstrlen = reply.payload` is a byte string and the other two
operands are the ints 49 and 1; `pyAdd`/`pySub` model the Python typing
of that expression. -/
def receive_handshake (reply1 reply2 : SocketReply) : HandshakeOutcome :=
  if reply1.status ≠ ReplyStatus.success then HandshakeOutcome.handshakeException
  else
    let pstrlen : PyVal := PyVal.bytes reply1.payload
    match (pyAdd pstrlen (PyVal.int 49)).bind (fun x => pySub x (PyVal.int 1)) with
    | none => HandshakeOutcome.typeError
    | some _ =>
      if reply2.status ≠ ReplyStatus.success then HandshakeOutcome.handshakeException
      else
        match decode_handshake (reply1.payload ++ reply2.payload) with
        | none => HandshakeOutcome.decodeError
        | some h => HandshakeOutcome.ok h

/-! ## peerwire.Peer.receive_message -/

/-- The per-peer protocol state that `receive_message` mutates. -/
structure PeerState where
  am_choking : Bool := true
  am_interested : Bool := false
  peer_choking : Bool := true
  peer_interested : Bool := false
  bitfield : List Bool := []
deriving DecidableEq, Repr

/-- The two hex digits of one byte, as digit values, as produced per
byte by the Python 2 hex encoding of a byte string. -/
def hexDigits (byte : Nat) : List Nat :=
  [byte / 16, byte % 16]

/-- Embedding of `int(payload.encode("hex"), 16)` (peerwire.py line
247): hex-encode the byte string and parse the digit string in base 16;
`int` on an empty digit string raises ValueError (= `none`). -/
def pyIntHex16 (payload : List Nat) : Option Nat :=
  if payload = [] then none
  else some ((payload.flatMap hexDigits).foldl (fun acc d => acc * 16 + d) 0)

/-- Embedding of the message dispatch of `Peer.receive_message`
(peerwire.py lines 211-314), given the already-received frame body
`message` (the bytes after the 4-byte length prefix):
`message_id = ord(message[0])` (IndexError on an empty body = `none`),
`payload = message[1:]` when `message_id >= 4`, then the id switch.
Ids 0-3 set the choke/interest flags, id 4 adds the parsed piece index
to the bitfield, id 5 replaces the bitfield, ids 6-9 and unknown ids
are `pass`. -/
def receive_message (st : PeerState) (message : List Nat) : Option PeerState :=
  match message with
  | [] => none
  | message_id :: tail =>
    let payload := if message_id ≥ 4 then tail else []
    if message_id = 0 then some { st with peer_choking := true }
    else if message_id = 1 then some { st with peer_choking := false }
    else if message_id = 2 then some { st with peer_interested := true }
    else if message_id = 3 then some { st with peer_interested := false }
    else if message_id = 4 then
      match pyIntHex16 payload with
      | none => none
      | some piece_index =>
        some { st with bitfield := add_index st.bitfield piece_index }
    else if message_id = 5 then
      some { st with bitfield := Bitfield.ofBytes payload }
    else some st

/-! ## Helper lemmas -/

theorem pyListPop_reverse_nil : pyListPop ([] : List Nat).reverse = none := rfl

theorem pyListPop_reverse_cons (x : Nat) (t : List Nat) :
    pyListPop (x :: t).reverse = some (x, t.reverse) := by
  unfold pyListPop
  rw [List.getLast?_reverse]
  simp only [List.head?_cons]
  rw [List.reverse_cons, List.dropLast_concat]

theorem popN_reverse (n : Nat) (s : List Nat) :
    popN n s.reverse =
      if n ≤ s.length then some (s.take n, (s.drop n).reverse) else none := by
  induction n generalizing s with
  | zero => simp [popN]
  | succ n ih =>
    cases s with
    | nil => simp [popN, pyListPop]
    | cons x t =>
      simp only [popN, pyListPop_reverse_cons, ih t, List.length_cons]
      by_cases h : n ≤ t.length
      · simp [h, Nat.succ_le_succ h]
      · have h' : ¬ (n + 1 ≤ t.length + 1) := by omega
        simp [h, h']

theorem decode_handshake_eq (b : Nat) (rest : List Nat)
    (h : 48 + b ≤ rest.length) :
    decode_handshake (b :: rest) =
      some { pstrlen := b
             pstr := rest.take b
             reserved := (rest.drop b).take 8
             info_hash := ((rest.drop b).drop 8).take 20
             peer_id := (((rest.drop b).drop 8).drop 20).take 20 } := by
  have h1 : b ≤ rest.length := by omega
  have h2 : 8 ≤ (rest.drop b).length := by
    rw [List.length_drop]; omega
  have h3 : 20 ≤ ((rest.drop b).drop 8).length := by
    rw [List.length_drop, List.length_drop]; omega
  have h4 : 20 ≤ (((rest.drop b).drop 8).drop 20).length := by
    rw [List.length_drop, List.length_drop, List.length_drop]; omega
  unfold decode_handshake
  simp only [pyListPop_reverse_cons, popN_reverse, h1, h2, h3, h4, if_true,
    if_pos]

theorem hexDigits_foldl (l : List Nat) (acc : Nat) :
    (l.flatMap hexDigits).foldl (fun a d => a * 16 + d) acc =
      l.foldl (fun a byte => a * 256 + byte) acc := by
  induction l generalizing acc with
  | nil => rfl
  | cons b t ih =>
    rw [List.flatMap_cons, List.foldl_append]
    simp only [hexDigits, List.foldl_cons, List.foldl_nil]
    rw [ih]
    have hb : (acc * 16 + b / 16) * 16 + b % 16 = acc * 256 + b := by omega
    rw [hb]

theorem pyIntHex16_eq (payload : List Nat) (h : payload ≠ []) :
    pyIntHex16 payload = some (beUnpack payload) := by
  unfold pyIntHex16 beUnpack
  rw [if_neg h, hexDigits_foldl]

theorem padLoop_eq (n : Nat) (b : List Bool) :
    padLoop n b = b ++ List.replicate n false := by
  induction n generalizing b with
  | zero => simp [padLoop]
  | succ n ih =>
    rw [padLoop, ih, List.replicate_succ]
    simp

theorem set_append_singleton (l : List Bool) (a x : Bool) (i : Nat)
    (h : l.length = i) : (l ++ [a]).set i x = l ++ [x] := by
  subst h
  induction l with
  | nil => rfl
  | cons y t ih => simp [List.set, ih]

theorem length_add_index (b : List Bool) (i : Nat) :
    (add_index b i).length = max b.length (i + 1) := by
  unfold add_index
  rw [padLoop_eq]
  simp only [List.length_set, List.length_append, List.length_replicate]
  omega

theorem add_index_ge (b : List Bool) (i : Nat) (h : b.length ≤ i) :
    add_index b i = b ++ List.replicate (i - b.length) false ++ [true] := by
  unfold add_index
  rw [padLoop_eq, show i + 1 - b.length = (i - b.length) + 1 from by omega,
    List.replicate_succ', ← List.append_assoc]
  have hlen : (b ++ List.replicate (i - b.length) false).length = i := by
    simp only [List.length_append, List.length_replicate]; omega
  rw [set_append_singleton _ false true i hlen]

theorem add_index_lt (b : List Bool) (i : Nat) (h : i < b.length) :
    add_index b i = b.set i true := by
  unfold add_index
  rw [show i + 1 - b.length = 0 from by omega]
  rfl

theorem shiftRight_and_one_bne (x k : Nat) :
    (((x >>> k) &&& 1) != 0) = x.testBit k := by
  rw [Nat.testBit_to_div_mod, Nat.shiftRight_eq_div_pow, Nat.and_one_is_mod]
  rcases Nat.mod_two_eq_zero_or_one (x / 2 ^ k) with h | h <;> rw [h] <;> decide

theorem byteToBits_eq (byte : Nat) :
    byteToBits byte =
      [byte.testBit 7, byte.testBit 6, byte.testBit 5, byte.testBit 4,
       byte.testBit 3, byte.testBit 2, byte.testBit 1, byte.testBit 0] := by
  have hr : (List.range 8).reverse = [7, 6, 5, 4, 3, 2, 1, 0] := rfl
  simp only [byteToBits, hr, List.map_cons, List.map_nil,
    shiftRight_and_one_bne]

theorem ofBytes_cons (b : Nat) (rest : List Nat) :
    Bitfield.ofBytes (b :: rest) = byteToBits b ++ Bitfield.ofBytes rest := by
  simp [Bitfield.ofBytes]

theorem length_ofBytes (raw : List Nat) :
    (Bitfield.ofBytes raw).length = 8 * raw.length := by
  induction raw with
  | nil => rfl
  | cons b t ih =>
    rw [ofBytes_cons, List.length_append, ih, byteToBits_eq]
    simp only [List.length_cons, List.length_nil]
    omega

theorem generate_handshake_eq (ihash pid : List Nat)
    (h : ihash.length + pid.length = 40) :
    generate_handshake ihash pid =
      some ([19] ++ pstr ++ List.replicate 8 0 ++ ihash ++ pid) := by
  have hcond :
      ([pstr.length] ++ pstr ++ List.replicate 8 0 ++ ihash ++ pid).length =
        49 + pstr.length := by
    simp only [List.length_append, List.length_replicate, List.length_cons,
      List.length_nil]
    omega
  simp only [generate_handshake]
  rw [if_pos hcond, if_pos (show [pstr.length] = [19] from rfl)]
  rfl

theorem generate_handshake_none (ihash pid : List Nat)
    (h : ihash.length + pid.length ≠ 40) :
    generate_handshake ihash pid = none := by
  have hp : pstr.length = 19 := rfl
  have hcond :
      ¬ ([pstr.length] ++ pstr ++ List.replicate 8 0 ++ ihash ++ pid).length =
        49 + pstr.length := by
    simp only [List.length_append, List.length_replicate, List.length_cons,
      List.length_nil, hp]
    omega
  simp only [generate_handshake]
  rw [if_neg hcond]

/-! ## The claims -/

/-- C1: for every 20-byte info_hash and 20-byte peer_id,
`decode_handshake (generate_handshake info_hash peer_id)` yields a
handshake whose info_hash and peer_id equal the inputs, whose pstr is
"BitTorrent protocol", whose pstrlen is 19, and whose reserved field is
8 zero bytes. -/
theorem C1_handshake_roundtrip (ihash pid : List Nat)
    (h1 : ihash.length = 20) (h2 : pid.length = 20) :
    ∃ hs, generate_handshake ihash pid = some hs ∧
      decode_handshake hs =
        some { pstrlen := 19, pstr := pstr, reserved := List.replicate 8 0,
               info_hash := ihash, peer_id := pid } := by
  have hp : pstr.length = 19 := rfl
  refine ⟨_, generate_handshake_eq ihash pid (by omega), ?_⟩
  have hshape :
      [19] ++ pstr ++ List.replicate 8 0 ++ ihash ++ pid =
        19 :: (pstr ++ (List.replicate 8 0 ++ (ihash ++ pid))) := by
    simp
  rw [hshape,
    decode_handshake_eq 19 (pstr ++ (List.replicate 8 0 ++ (ihash ++ pid)))
      (by simp only [List.length_append, List.length_replicate, hp, h1, h2]
          omega)]
  have e1 : (pstr ++ (List.replicate 8 0 ++ (ihash ++ pid))).take 19 = pstr :=
    List.take_left' rfl
  have e2 : (pstr ++ (List.replicate 8 0 ++ (ihash ++ pid))).drop 19 =
      List.replicate 8 0 ++ (ihash ++ pid) :=
    List.drop_left' rfl
  have e3 : (List.replicate 8 (0 : Nat) ++ (ihash ++ pid)).take 8 =
      List.replicate 8 0 :=
    List.take_left' (List.length_replicate 8 0)
  have e4 : (List.replicate 8 (0 : Nat) ++ (ihash ++ pid)).drop 8 =
      ihash ++ pid :=
    List.drop_left' (List.length_replicate 8 0)
  have e5 : (ihash ++ pid).take 20 = ihash := List.take_left' h1
  have e6 : (ihash ++ pid).drop 20 = pid := List.drop_left' h1
  have e7 : pid.take 20 = pid := by rw [← h2, List.take_length]
  simp only [e1, e2, e3, e4, e5, e6, e7]

/-- C1 witness: the round-trip at two concrete 20-byte strings. -/
theorem C1_witness :
    ∃ hs, generate_handshake (List.replicate 20 1) (List.replicate 20 2) =
        some hs ∧
      decode_handshake hs =
        some { pstrlen := 19, pstr := pstr, reserved := List.replicate 8 0,
               info_hash := List.replicate 20 1,
               peer_id := List.replicate 20 2 } :=
  C1_handshake_roundtrip _ _ (by simp) (by simp)

/-- C7 counterexample: the claim says encoding must fail whenever
info_hash is not exactly 20 bytes, but a 19-byte info_hash together
with a 21-byte peer_id passes the assert (it only checks the total
length) and the encoding succeeds. -/
theorem C7_counterexample :
    (List.replicate 19 (0 : Nat)).length ≠ 20 ∧
    generate_handshake (List.replicate 19 0) (List.replicate 21 0) ≠ none := by
  constructor
  · decide
  · rw [generate_handshake_eq _ _ (by decide)]
    simp

/-- C7 (amended): `generate_handshake` fails exactly when
`|info_hash| + |peer_id| ≠ 40` (the assert checks only the total
length, 68 bytes); for inputs of exactly 20 bytes each it succeeds and
returns the 68-byte buffer
pstrlen(19) + "BitTorrent protocol" + 8 zero bytes + info_hash +
peer_id. -/
theorem C7_generate_total_length (ihash pid : List Nat) :
    (generate_handshake ihash pid = none ↔ ihash.length + pid.length ≠ 40) ∧
    (ihash.length = 20 → pid.length = 20 →
      generate_handshake ihash pid =
        some ([19] ++ pstr ++ List.replicate 8 0 ++ ihash ++ pid) ∧
      ∀ out, generate_handshake ihash pid = some out → out.length = 68) := by
  have hp : pstr.length = 19 := rfl
  constructor
  · constructor
    · intro hnone hlen
      rw [generate_handshake_eq _ _ hlen] at hnone
      exact Option.noConfusion hnone
    · exact generate_handshake_none _ _
  · intro h1 h2
    refine ⟨generate_handshake_eq _ _ (by omega), ?_⟩
    intro out hout
    rw [generate_handshake_eq _ _ (by omega)] at hout
    injection hout with hout
    rw [← hout]
    simp only [List.length_append, List.length_replicate, List.length_cons,
      List.length_nil, hp, h1, h2]

/-- C7 witness: the amended claim at two concrete 20-byte strings. -/
theorem C7_witness :
    generate_handshake (List.replicate 20 3) (List.replicate 20 4) =
      some ([19] ++ pstr ++ List.replicate 8 0 ++ List.replicate 20 3 ++
        List.replicate 20 4) :=
  ((C7_generate_total_length _ _).2 (by decide) (by decide)).1

/-- C10: `decode_handshake` depends only on the leading
`49 + pstrlen` bytes of its input, where `pstrlen` is the first byte:
any buffer at least that long decodes successfully, and appending
arbitrary extra bytes leaves the decoded record unchanged. -/
theorem C10_decode_ignores_trailing (b : Nat) (rest extra : List Nat)
    (h : 49 + b ≤ (b :: rest).length) :
    (decode_handshake (b :: rest)).isSome = true ∧
    decode_handshake ((b :: rest) ++ extra) = decode_handshake (b :: rest) := by
  have h' : 48 + b ≤ rest.length := by
    simp only [List.length_cons] at h
    omega
  have hdrop : (rest.drop b).length = rest.length - b := List.length_drop b rest
  have hdrop8 : ((rest.drop b).drop 8).length = rest.length - b - 8 := by
    rw [List.length_drop, List.length_drop]
  constructor
  · rw [decode_handshake_eq b rest h']
    rfl
  · rw [List.cons_append,
      decode_handshake_eq b (rest ++ extra)
        (by simp only [List.length_append]; omega),
      decode_handshake_eq b rest h']
    have f1 : (rest ++ extra).take b = rest.take b :=
      List.take_append_of_le_length (by omega)
    have f2 : (rest ++ extra).drop b = rest.drop b ++ extra :=
      List.drop_append_of_le_length (by omega)
    have f3 : (rest.drop b ++ extra).take 8 = (rest.drop b).take 8 :=
      List.take_append_of_le_length (by omega)
    have f4 : (rest.drop b ++ extra).drop 8 = (rest.drop b).drop 8 ++ extra :=
      List.drop_append_of_le_length (by omega)
    have f5 : ((rest.drop b).drop 8 ++ extra).take 20 =
        ((rest.drop b).drop 8).take 20 :=
      List.take_append_of_le_length (by omega)
    have f6 : ((rest.drop b).drop 8 ++ extra).drop 20 =
        ((rest.drop b).drop 8).drop 20 ++ extra :=
      List.drop_append_of_le_length (by omega)
    have f7 : (((rest.drop b).drop 8).drop 20 ++ extra).take 20 =
        (((rest.drop b).drop 8).drop 20).take 20 :=
      List.take_append_of_le_length
        (by rw [List.length_drop, List.length_drop, List.length_drop]; omega)
    simp only [f1, f2, f3, f4, f5, f6, f7]

/-- C10 witness: a 49-byte buffer with pstrlen 0, with and without a
trailing byte. -/
theorem C10_witness :
    (decode_handshake (0 :: List.replicate 48 0)).isSome = true ∧
    decode_handshake ((0 :: List.replicate 48 0) ++ [5]) =
      decode_handshake (0 :: List.replicate 48 0) :=
  C10_decode_ignores_trailing 0 (List.replicate 48 0) [5] (by decide)

/-- C2: the claim says `has_index` returns false and does not fail for
every index ≥ the current length, in particular at index = length.  In
the code the guard is `len(self.bitfield) >= index`, so at index =
length the subscript `self.bitfield[index]` is evaluated one past the
end and raises IndexError (`none` here); false is returned only for
index > length.  The guard was clearly meant to be `>`. -/
theorem C2_has_index_boundary :
    has_index [] 0 = none ∧
    has_index [true, true, false] 3 = none ∧
    has_index [true, true, false] 4 = some false ∧
    has_index [true, true, false] 1 = some true := by decide

/-- C3: the claim says `close()` enqueues a close command; the code
(`self.command_queue.put(SocketCommand(SocketCommand.CONNECT))`)
enqueues a CONNECT command with no payload instead.  Processing an
actual CLOSE command does release the socket, clear the connected
event, and produce exactly one Success reply. -/
theorem C3_close_enqueues_connect :
    close_enqueued_command.command = CommandType.connect ∧
    CommandType.connect ≠ CommandType.close ∧
    handle_CLOSE { socketOpen := true, connected := true } =
      ({ socketOpen := false, connected := false },
       [{ status := ReplyStatus.success }]) := by decide

/-- C4: the claim says `receive_handshake` raises only
HandshakeException (when a reply signals Error or the decode fails) and
otherwise records the decoded handshake.  An Error first reply does
raise HandshakeException, but on every successful first reply the code
evaluates `pstrlen + 49 - 1` with `pstrlen` the raw byte-string
payload, which raises an uncaught TypeError before the second receive,
so the success path is unreachable. -/
theorem C4_receive_handshake_outcomes :
    receive_handshake { status := ReplyStatus.error }
        { status := ReplyStatus.success } =
      HandshakeOutcome.handshakeException ∧
    receive_handshake { status := ReplyStatus.success, payload := [19] }
        { status := ReplyStatus.success, payload := List.replicate 67 0 } =
      HandshakeOutcome.typeError ∧
    receive_handshake { status := ReplyStatus.success, payload := [0] }
        { status := ReplyStatus.error } =
      HandshakeOutcome.typeError := by decide

/-- C5: a frame with message id 4 and a 4-byte payload makes
`receive_message` parse the payload as an unsigned big-endian 4-byte
integer (the hex-encode-then-parse expression equals the big-endian
value) and set exactly that index in the bitfield; payload
0x00000007 against a fresh state sets index 7 true and leaves indices
0-6 false. -/
theorem C5_have_message (st : PeerState) (payload : List Nat)
    (h : payload.length = 4) :
    receive_message st (4 :: payload) =
      some { st with bitfield := add_index st.bitfield (beUnpack payload) } ∧
    receive_message {} (4 :: [0, 0, 0, 7]) =
      some { bitfield :=
        [false, false, false, false, false, false, false, true] } := by
  constructor
  · have hne : payload ≠ [] := by
      intro he
      rw [he] at h
      exact absurd h (by decide)
    simp only [receive_message]
    rw [pyIntHex16_eq _ (by simpa using hne)]
    simp
  · decide

/-- C5 witness: the general equation at a concrete 4-byte payload. -/
theorem C5_witness :
    receive_message { bitfield := [true] } (4 :: [0, 0, 0, 2]) =
      some { bitfield := add_index [true] (beUnpack [0, 0, 0, 2]) } :=
  (C5_have_message { bitfield := [true] } [0, 0, 0, 2] (by decide)).1

/-- C8: constructing a Bitfield from n raw bytes yields exactly 8*n
boolean entries, MSB-first within each byte (bit 7 of byte 0 is piece
index 0); `Bitfield(bytes([0b10110000]))` is
[true, false, true, true, false, false, false, false], and the empty
byte string yields a zero-length bitfield. -/
theorem C8_bitfield_init :
    (∀ raw : List Nat, (Bitfield.ofBytes raw).length = 8 * raw.length) ∧
    (∀ byte rest, Bitfield.ofBytes (byte :: rest) =
      [byte.testBit 7, byte.testBit 6, byte.testBit 5, byte.testBit 4,
       byte.testBit 3, byte.testBit 2, byte.testBit 1, byte.testBit 0] ++
        Bitfield.ofBytes rest) ∧
    Bitfield.ofBytes [] = [] ∧
    Bitfield.ofBytes [0b10110000] =
      [true, false, true, true, false, false, false, false] := by
  refine ⟨length_ofBytes, ?_, rfl, by decide⟩
  intro byte rest
  rw [ofBytes_cons, byteToBits_eq]

/-- C9: `add_index` never fails and never shrinks: the new length is
max(old length, index + 1); when the index is at or beyond the current
length the old entries are kept, the gap is padded with false and the
entry at the index becomes true; below the current length it is a plain
in-place set; `add_index` on the empty bitfield at 5 gives
[false, false, false, false, false, true]. -/
theorem C9_add_index_grows (b : List Bool) (i : Nat) :
    b.length ≤ (add_index b i).length ∧
    (add_index b i).length = max b.length (i + 1) ∧
    (b.length ≤ i →
      add_index b i = b ++ List.replicate (i - b.length) false ++ [true]) ∧
    (i < b.length → add_index b i = b.set i true) ∧
    add_index [] 5 = [false, false, false, false, false, true] := by
  refine ⟨?_, length_add_index b i, add_index_ge b i, add_index_lt b i,
    by decide⟩
  rw [length_add_index]
  omega

/-- C6: for each prefix width in {1,2,4,8}, the receive-with-prefix
handler reads a big-endian length prefix of that width, then exactly
that many body bytes, and replies Success with the
(prefix bytes, body bytes) pair — the body empty when the prefix is 0 —
or Error "Socket closed prematurely" when the stream ends before the
prefix or before the declared body is complete. -/
theorem C6_receive_prefixed (ps : Nat)
    (hps : ps = 1 ∨ ps = 2 ∨ ps = 4 ∨ ps = 8) (stream : List Nat) :
    (stream.length < ps →
      handle_RECEIVE_PREFIXED ps stream =
        PrefixOutcome.errorClosedPrematurely) ∧
    (ps ≤ stream.length →
      (beUnpack (stream.take ps) ≤ (stream.drop ps).length →
        handle_RECEIVE_PREFIXED ps stream =
          PrefixOutcome.success (stream.take ps)
            ((stream.drop ps).take (beUnpack (stream.take ps))) ∧
        ((stream.drop ps).take (beUnpack (stream.take ps))).length =
          beUnpack (stream.take ps)) ∧
      ((stream.drop ps).length < beUnpack (stream.take ps) →
        handle_RECEIVE_PREFIXED ps stream =
          PrefixOutcome.errorClosedPrematurely)) := by
  constructor
  · intro hlt
    have hc : ¬ (stream.take ps).length = ps := by
      rw [List.length_take]; omega
    simp only [handle_RECEIVE_PREFIXED, receive_all]
    rw [if_neg hc]
  · intro hge
    have hc : (stream.take ps).length = ps := by
      rw [List.length_take]; omega
    constructor
    · intro hL
      simp only [handle_RECEIVE_PREFIXED, receive_all]
      rw [if_pos hc, if_pos hps]
      by_cases h0 : beUnpack (stream.take ps) = 0
      · rw [if_pos h0, if_pos (by simp [h0])]
        constructor
        · rw [h0, List.take_zero]
        · rw [h0, List.take_zero]
          rfl
      · rw [if_neg h0]
        have hrecv :
            ((stream.drop ps).take (beUnpack (stream.take ps))).length =
              beUnpack (stream.take ps) := by
          rw [List.length_take]; omega
        rw [if_pos hrecv]
        exact ⟨rfl, hrecv⟩
    · intro hlt2
      simp only [handle_RECEIVE_PREFIXED, receive_all]
      rw [if_pos hc, if_pos hps]
      have h0 : ¬ beUnpack (stream.take ps) = 0 := by omega
      rw [if_neg h0]
      have hrecv :
          ¬ ((stream.drop ps).take (beUnpack (stream.take ps))).length =
            beUnpack (stream.take ps) := by
        rw [List.length_take]; omega
      rw [if_neg hrecv]

/-- C6 witness: width 4, a complete frame with a 2-byte body, and a
truncated stream. -/
theorem C6_witness :
    handle_RECEIVE_PREFIXED 4 [0, 0, 0, 2, 9, 9] =
      PrefixOutcome.success [0, 0, 0, 2] [9, 9] ∧
    handle_RECEIVE_PREFIXED 4 [0, 0] =
      PrefixOutcome.errorClosedPrematurely := by
  constructor
  · have h := ((C6_receive_prefixed 4 (by decide) [0, 0, 0, 2, 9, 9]).2
      (by decide)).1 (by decide)
    exact h.1.trans (by decide)
  · exact (C6_receive_prefixed 4 (by decide) [0, 0]).1 (by decide)

/-- C9 witness: the growth branch and the in-range branch at concrete
inputs. -/
theorem C9_witness :
    add_index [true] 3 = [true] ++ List.replicate 2 false ++ [true] ∧
    add_index [true, true] 0 = [true, true].set 0 true :=
  ⟨(C9_add_index_grows [true] 3).2.2.1 (by decide),
   (C9_add_index_grows [true, true] 0).2.2.2.1 (by decide)⟩

end PyTorrent
